import Mathlib

/-
Verification development for the ottoman-routing map search control.

The JavaScript source (src/search-control.js, second document in the file,
together with the helpers module src/unnamed/part_003) is shallowly embedded
below.  JavaScript numbers are modelled by Rat (or Int where the source only
meets integers), JavaScript strings by String, absent object keys by Option,
and the JavaScript value zoo relevant to the normalizer by the small PropVal
type.  Fallible or event-driven code becomes explicit state passing.
-/

namespace OttomanRouting

/-! ## JavaScript value scaffolding -/

/-- A JavaScript property value as far as the normalizer and the sidebar code
inspect one: null, a string, or an integer number.  An absent key (which reads
as undefined) is modelled by wrapping in Option. -/
inductive PropVal
  | vnull
  | vstr (s : String)
  | vnum (n : Int)
deriving DecidableEq, Repr

/-- JavaScript String(v) on a PropVal. -/
def jsToString : PropVal → String
  | .vnull => "null"
  | .vstr s => s
  | .vnum n => toString n

/-- JavaScript Number(v) on a PropVal; none models NaN.  String parsing is
modelled for the integer literals that occur in the data. -/
def jsToNumber : PropVal → Option Int
  | .vnull => some 0
  | .vnum n => some n
  | .vstr s => if s = "" then some 0 else s.toInt?

/-- JavaScript truth test: null, the empty string and 0 are falsy. -/
def jsFalsy : PropVal → Bool
  | .vnull => true
  | .vstr s => s = ""
  | .vnum n => n = 0

/-- JavaScript nullish coalescing a ?? b, where the outer none models
undefined (absent key). -/
def jsCoalesce (a b : Option PropVal) : Option PropVal :=
  match a with
  | none => b
  | some .vnull => b
  | some v => some v

/-- JavaScript a || b on strings (empty string is falsy). -/
def jsOrStr (a b : String) : String :=
  if a = "" then b else a

/-- JavaScript a || b on numbers (zero is falsy). -/
def jsOrNum (a b : ℚ) : ℚ :=
  if a = 0 then b else a

/-- JavaScript toLowerCase on one character, restricted to the ASCII range
the line names live in. -/
def jsCharToLower (c : Char) : Char :=
  if 65 ≤ c.toNat ∧ c.toNat ≤ 90 then Char.ofNat (c.toNat + 32) else c

/-- JavaScript s.toLowerCase(), character by character. -/
def jsToLower (s : String) : String :=
  String.mk (s.data.map jsCharToLower)

/-! ## Corpus normalizer (normalizeFeatures, search-control.js 44-60 and
helpers in src/unnamed/part_003 181-197; both copies are identical) -/

/-- Geometry of a GeoJSON feature, as far as the control inspects it. -/
inductive Geom
  | point (c : ℚ × ℚ)
  | multiPoint (cs : List (ℚ × ℚ))
  | lineString (cs : List (ℚ × ℚ))
  | multiLineString (ls : List (List (ℚ × ℚ)))
  | polygon (rings : List (List (ℚ × ℚ)))
  | multiPolygon (polys : List (List (List (ℚ × ℚ))))
deriving DecidableEq, Repr

/-- The raw properties bag of a corpus record, restricted to the keys the
normalizer touches.  none models an absent key. -/
structure RawProps where
  id : Option PropVal := none
  ID : Option PropVal := none
  name : Option PropVal := none
  title : Option PropVal := none
  rank : Option PropVal := none
deriving DecidableEq, Repr

/-- A raw corpus record: optional top-level id, optional properties bag
(the source reads f.properties || {}), geometry passed through. -/
structure RawFeature where
  topId : Option PropVal := none
  props : Option RawProps := none
  geometry : Option Geom := none
deriving DecidableEq, Repr

/-- The properties object built by normalizeFeatures.  The three named keys
are always present on the output object; ID and title record the passthrough
of the raw keys of the same name. -/
structure NormProps where
  id : PropVal
  name : PropVal
  rank : PropVal
  ID : Option PropVal
  title : Option PropVal
deriving DecidableEq, Repr

/-- A normalized feature as emitted by normalizeFeatures. -/
structure NormFeature where
  geometry : Option Geom
  properties : NormProps
deriving DecidableEq, Repr

/-- The rawId let-binding of normalizeFeatures:
(f.id !== undefined && f.id !== null) ? f.id : (p.id ?? p.ID ?? ''). -/
def rawIdOf (f : RawFeature) : Option PropVal :=
  let p := f.props.getD {}
  match f.topId with
  | some v =>
      if v = .vnull then jsCoalesce p.id (jsCoalesce p.ID (some (.vstr "")))
      else some v
  | none => jsCoalesce p.id (jsCoalesce p.ID (some (.vstr "")))

/-- The fid let-binding of normalizeFeatures:
(rawId === null || rawId === undefined) ? '' : String(rawId). -/
def fidOf (f : RawFeature) : String :=
  match rawIdOf f with
  | none => ""
  | some .vnull => ""
  | some v => jsToString v

/-- normalizeFeatures on one record.  The returned properties object is
written in the source as
  { id: fid, name: p.name ?? p.title ?? '', rank: (p.rank !== undefined) ?
    Number(p.rank) : 9999, ...p }
so the trailing spread of p re-assigns id, name and rank whenever the raw bag
carries a key of that name; the match below realizes exactly that object. -/
def normalizeFeature (f : RawFeature) : NormFeature :=
  let p := f.props.getD {}
  let fid := fidOf f
  { geometry := f.geometry
  , properties :=
    { id := match p.id with
            | some v => v
            | none => .vstr fid
    , name := match p.name with
              | some v => v
              | none =>
                  match jsCoalesce p.title (some (.vstr "")) with
                  | some v => v
                  | none => .vstr ""
    , rank := match p.rank with
              | some v => v
              | none => .vnum 9999
    , ID := p.ID
    , title := p.title } }

/-- normalizeFeatures over a collection ((features || []).map(...)). -/
def normalizeFeatures (features : List RawFeature) : List NormFeature :=
  features.map normalizeFeature

/-- Whether a PropVal is a string value. -/
def PropVal.isString : PropVal → Bool
  | .vstr _ => true
  | _ => false

/-! ## The corpus as the UI-level code consumes it

Downstream code reads a corpus entry only through String(f.properties.id),
f.properties.name, f.properties.rank, f.properties.cluster and f.geometry,
so a corpus entry is modelled with its id already as the string the source
coerces it to, and rank as an optional number. -/

/-- A corpus Location as consumed by search, click hit-testing and the
sidebar. -/
structure Feature where
  id : String
  name : String
  rank : Option ℚ := none
  cluster : Option String := none
  geometry : Option Geom := none
deriving DecidableEq, Repr

/-- One of the two selection slots. -/
inductive Role
  | source
  | target
deriving DecidableEq, Repr

/-- activeRole === 'source' ? 'target' : 'source'. -/
def otherRole : Role → Role
  | .source => .target
  | .target => .source

/-- The two named selection slots (the selected module object). -/
structure SelState where
  source : Option Feature := none
  target : Option Feature := none
deriving DecidableEq, Repr

/-- Read a slot by role. -/
def SelState.get (sel : SelState) : Role → Option Feature
  | .source => sel.source
  | .target => sel.target

/-- setSelectedFeature(role, feat) restricted to its slot update; the marker
overlay synchronization and input box update are display side effects outside
the model. -/
def setSelectedFeature (sel : SelState) (role : Role) (feat : Option Feature) : SelState :=
  match role with
  | .source => { sel with source := feat }
  | .target => { sel with target := feat }

/-- getNodeById: if (!nodeId) return null; else find by string-coerced id. -/
def getNodeById (corpus : List Feature) (nodeId : PropVal) : Option Feature :=
  if jsFalsy nodeId then none
  else corpus.find? (fun f => f.id = jsToString nodeId)

/-- getNodeName: node name || id || String(nodeId), else String(nodeId). -/
def getNodeName (corpus : List Feature) (nodeId : PropVal) : String :=
  match getNodeById corpus nodeId with
  | some node => jsOrStr node.name (jsOrStr node.id (jsToString nodeId))
  | none => jsToString nodeId

/-- getNodeRank: Number(node.properties.rank) when the node exists and has a
rank, else null. -/
def getNodeRank (corpus : List Feature) (nodeId : PropVal) : Option ℚ :=
  match getNodeById corpus nodeId with
  | some node => node.rank
  | none => none

/-- The geometry test used by getPreferredNodeName: geometry present with
coordinates, and for Point geometry the coordinates differ from the origin. -/
def usableGeometry : Option Geom → Bool
  | none => false
  | some (.point c) => c.1 ≠ 0 ∨ c.2 ≠ 0
  | some _ => true

/-- name || id || String(nodeId) display fallback used by
getPreferredNodeName. -/
def displayName (f : Feature) (nodeId : PropVal) : String :=
  jsOrStr f.name (jsOrStr f.id (jsToString nodeId))

/-- getPreferredNodeName: prefer the Location held in a selection slot with a
matching identifier, then a corpus entry with usable geometry, then any
corpus entry, finally the string-coerced identifier itself. -/
def getPreferredNodeName (corpus : List Feature) (sel : SelState) (nodeId : PropVal) : String :=
  if jsFalsy nodeId then jsToString nodeId
  else
    match sel.source with
    | some sf =>
        if sf.id = jsToString nodeId then displayName sf nodeId
        else getPreferredNodeNameTail corpus sel nodeId
    | none => getPreferredNodeNameTail corpus sel nodeId
where
  getPreferredNodeNameTail (corpus : List Feature) (sel : SelState) (nodeId : PropVal) : String :=
    match sel.target with
    | some tf =>
        if tf.id = jsToString nodeId then displayName tf nodeId
        else getPreferredNodeNameGeom corpus nodeId
    | none => getPreferredNodeNameGeom corpus nodeId
  getPreferredNodeNameGeom (corpus : List Feature) (nodeId : PropVal) : String :=
    match corpus.find? (fun f => f.id = jsToString nodeId ∧ usableGeometry f.geometry) with
    | some f => displayName f nodeId
    | none => getNodeName corpus nodeId

/-! ## Route segments and the itinerary (updateSidebarForRoute,
search-control.js 1902-2105, with the mode table from
src/unnamed/part_003 111-125) -/

/-- modeIntToName: integer mode code to canonical mode tag. -/
def modeIntToName (n : Int) : Option String :=
  if n = 1 then some "road"
  else if n = 2 then some "chaussee"
  else if n = 3 then some "ferry"
  else if n = 4 then some "metro"
  else if n = 5 then some "horse tramway"
  else if n = 6 then some "ship"
  else if n = 7 then some "electric tramway"
  else if n = 8 then some "railway"
  else if n = 9 then some "transfer"
  else if n = 10 then some "switch"
  else if n = 11 then some "connection"
  else if n = 12 then some "steam tramway"
  else if n = 13 then some "narrow-gauge railway"
  else none

/-- A raw cost value as delivered in a route payload: a number, or something
whose Number() coercion is NaN. -/
inductive CostVal
  | num (q : ℚ)
  | nonNumeric
deriving DecidableEq, Repr

/-- Number(cost) || 0: NaN falls to 0, a number passes through (zero maps to
zero, which the || 0 also produces). -/
def CostVal.minutes : CostVal → ℚ
  | .num q => q
  | .nonNumeric => 0

/-- The properties of one route feature as the sidebar code reads them.
none models an absent key. -/
structure SegProps where
  source : Option PropVal := none
  src : Option PropVal := none
  target : Option PropVal := none
  tgt : Option PropVal := none
  line : Option PropVal := none
  name : Option PropVal := none
  mode : Option PropVal := none
  cost : Option CostVal := none
  sidebarColor : Option String := none
  geometry : Option Geom := none
deriving DecidableEq, Repr

/-- One entry of the segs array built at the top of updateSidebarForRoute. -/
structure Seg where
  idx : Nat
  sourceId : PropVal
  targetId : PropVal
  source : String
  target : String
  line : PropVal
  modeInt : Option Int
  mode : String
  cost : CostVal
  color : String
deriving DecidableEq, Repr

/-- The segs mapping: routeGeo.features.map((f, i) => ({ idx: i, sourceId:
p.source ?? p.src ?? '', ..., line: p.line ?? p.name ?? '', modeInt:
Number(p.mode), mode: modeIntToName[Number(p.mode)] ?? '', cost: p.cost ?? 0,
color: p.ml_sidebar_color || '#000000' })). -/
def mkSeg (corpus : List Feature) (sel : SelState) (i : Nat) (p : SegProps) : Seg :=
  let srcV := (jsCoalesce p.source (jsCoalesce p.src (some (.vstr "")))).getD (.vstr "")
  let tgtV := (jsCoalesce p.target (jsCoalesce p.tgt (some (.vstr "")))).getD (.vstr "")
  let modeNum : Option Int := match p.mode with
    | none => none
    | some v => jsToNumber v
  { idx := i
  , sourceId := srcV
  , targetId := tgtV
  , source := getPreferredNodeName corpus sel srcV
  , target := getPreferredNodeName corpus sel tgtV
  , line := (jsCoalesce p.line (jsCoalesce p.name (some (.vstr "")))).getD (.vstr "")
  , modeInt := modeNum
  , mode := (modeNum.bind modeIntToName).getD ""
  , cost := p.cost.getD (.num 0)
  , color := match p.sidebarColor with
             | none => "#000000"
             | some c => jsOrStr c "#000000" }

/-- The full segs array, with positional indices. -/
def mkSegs (corpus : List Feature) (sel : SelState) (ps : List SegProps) : List Seg :=
  ps.enum.map (fun ip => mkSeg corpus sel ip.1 ip.2)

/-- isSwitchSeg (line 1958): String(seg.line || '').toLowerCase() === 'switch'
and String(seg.sourceId || '') === String(seg.targetId || '').  This predicate
feeds only the steps array, which is built and never rendered. -/
def isSwitchSeg (seg : Seg) : Bool :=
  jsToLower (jsToString (if jsFalsy seg.line then .vstr "" else seg.line)) = "switch"
  ∧ jsToString (if jsFalsy seg.sourceId then .vstr "" else seg.sourceId)
      = jsToString (if jsFalsy seg.targetId then .vstr "" else seg.targetId)

/-- The collapse test of the rows loop (lines 2009-2012): isSwitch is
Number(seg.modeInt) === 10 || seg.mode === "switch", isRepeat is
seg.sourceId === seg.targetId, and the segment is skipped when both hold. -/
def collapseSeg (s : Seg) : Bool :=
  decide ((s.modeInt = some 10 ∨ s.mode = "switch") ∧ s.sourceId = s.targetId)

/-- total duration in minutes:
segs.reduce((acc, s) => acc + (Number(s.cost) || 0), 0). -/
def totalMins (segs : List Seg) : ℚ :=
  segs.foldl (fun acc s => acc + s.cost.minutes) 0

/-- One itinerary row.  The rank pushed in the rows loop reads the fields
seg.sourceRank, seg.targetRank and seg.rank, none of which the segs mapping
defines, so it is always the undefined value (none here); costMins is the
minutes value handed to the humanizer. -/
inductive Row
  | node (label : String) (nodeId : PropVal) (rank : Option ℚ)
  | seg (idx : Nat) (line : PropVal) (mode : String) (color : String)
      (costMins : ℚ) (rank : Option ℚ)
deriving DecidableEq, Repr

/-- The segment row pushed for a non-collapsed segment. -/
def segRowOf (s : Seg) : Row :=
  .seg s.idx s.line s.mode s.color s.cost.minutes none

/-- The node row pushed for the target of a non-collapsed segment. -/
def targetNodeRowOf (s : Seg) : Row :=
  .node s.target s.targetId none

/-- Whether a row is a segment row. -/
def isSegRow : Row → Bool
  | .seg _ _ _ _ _ _ => true
  | .node _ _ _ => false

/-- The body of the rows loop from the second segment row on: for each
segment, unless it is a collapsible switch, push its segment row and its
target node row. -/
def rowsRest : List Seg → List Row
  | [] => []
  | s :: rest =>
      (if collapseSeg s then [] else [segRowOf s, targetNodeRowOf s]) ++ rowsRest rest

/-- The rows array of updateSidebarForRoute (lines 1993-2031): for a
non-empty segs array, first the source node of the first segment, then the
loop body over every segment. -/
def rowsFor (segs : List Seg) : List Row :=
  match segs with
  | [] => []
  | s0 :: _ => .node s0.source s0.sourceId none :: rowsRest segs

/-- The node rank resolution of the row renderer (lines 2038-2043): take the
rank carried on the row, else look the node up in the corpus. -/
def resolveNodeRank (corpus : List Feature) (rank : Option ℚ) (nodeId : PropVal) : Option ℚ :=
  match rank with
  | some r => some r
  | none => getNodeRank corpus nodeId

/-! ## Suggestion result re-sort (searchForRole, lines 1756-1764) -/

/-- A fuse.js result as the comparator reads it: the similarity score
(includeScore is set, but the comparator still guards with score || 0) and
the rank property of the matched item. -/
structure FuseResult where
  score : Option ℚ
  rank : Option ℚ
deriving DecidableEq, Repr

/-- a.score || 0. -/
def scoreKey (r : FuseResult) : ℚ := r.score.getD 0

/-- a.item.properties.rank ?? 9999. -/
def rankKey (r : FuseResult) : ℚ := r.rank.getD 9999

/-- The total preorder realized by the comparator
(a.score || 0) - (b.score || 0), ties broken by rank ascending. -/
def cmpLe (a b : FuseResult) : Prop :=
  scoreKey a < scoreKey b ∨ (scoreKey a = scoreKey b ∧ rankKey a ≤ rankKey b)

instance : DecidableRel cmpLe := fun a b => by
  unfold cmpLe; infer_instance

instance : IsTotal FuseResult cmpLe := by
  constructor
  intro a b
  unfold cmpLe
  rcases lt_trichotomy (scoreKey a) (scoreKey b) with h | h | h
  · exact .inl (.inl h)
  · rcases le_total (rankKey a) (rankKey b) with h2 | h2
    · exact .inl (.inr ⟨h, h2⟩)
    · exact .inr (.inr ⟨h.symm, h2⟩)
  · exact .inr (.inl h)

instance : IsTrans FuseResult cmpLe := by
  constructor
  intro a b c hab hbc
  unfold cmpLe at *
  rcases hab with h1 | ⟨h1, h1r⟩ <;> rcases hbc with h2 | ⟨h2, h2r⟩
  · exact .inl (h1.trans h2)
  · exact .inl (h2 ▸ h1)
  · exact .inl (h1 ▸ h2)
  · exact .inr ⟨h1.trans h2, h1r.trans h2r⟩

/-- raw.sort(comparator): the engine leaves the array sorted with respect to
the consistent comparator; modelled with a stable insertion sort. -/
def jsSortResults (l : List FuseResult) : List FuseResult :=
  List.insertionSort cmpLe l

/-! ## Map click hit test (map.on click, lines 2814-2893) -/

/-- The fixed click tolerance 0.006 degrees, squared.  The source compares
Math.sqrt(dx*dx + dy*dy) against 0.006 and against the best distance so far;
since square root is strictly monotone on nonnegative reals, both comparisons
are equivalent to the squared comparisons used here. -/
def tolSq : ℚ := (6 / 1000 : ℚ) ^ 2

/-- Squared Euclidean distance in degrees. -/
def distSq (a b : ℚ × ℚ) : ℚ := (a.1 - b.1) ^ 2 + (a.2 - b.2) ^ 2

/-- The coordinates of a feature if its geometry is a Point (the loop skips
every other geometry). -/
def pointCoords (f : Feature) : Option (ℚ × ℚ) :=
  match f.geometry with
  | some (.point c) => some c
  | _ => none

/-- One iteration of the nearest-feature loop: keep the accumulator unless
this feature is a Point strictly within tolerance and strictly closer than
the best so far. -/
def clickFold (click : ℚ × ℚ) (acc : Option (Feature × ℚ)) (f : Feature) :
    Option (Feature × ℚ) :=
  match pointCoords f with
  | none => acc
  | some c =>
      let d := distSq c click
      if d < tolSq ∧ (∀ p ∈ acc, d < p.2) then some (f, d) else acc

/-- The nearest corpus feature strictly within tolerance of the click, first
one winning on exact distance ties. -/
def nearestHit (corpus : List Feature) (click : ℚ × ℚ) : Option Feature :=
  (corpus.foldl (clickFold click) none).map Prod.fst

/-- The map click handler restricted to its effect on the selection slots:
no active role is a no-op; a miss is a no-op (the input is merely refocused);
a hit whose identifier equals the identifier in the other slot is rejected;
otherwise the active slot receives the hit. -/
def mapClick (corpus : List Feature) (activeRole : Option Role) (sel : SelState)
    (click : ℚ × ℚ) : SelState :=
  match activeRole with
  | none => sel
  | some role =>
      match nearestHit corpus click with
      | none => sel
      | some f =>
          match sel.get (otherRole role) with
          | some g => if g.id = f.id then sel else setSelectedFeature sel role (some f)
          | none => setSelectedFeature sel role (some f)

/-! ## Suggestion-row selection and the programmatic API
(selectForRole, lines 2684-2703; setSource / setTarget, lines 2905-2919) -/

/-- selectForRole(role, index) restricted to its slot effect: index into the
last results of the role (a missing entry is a no-op), then assign via
setSelectedFeature.  Clearing the suggestion list and moving focus are
display side effects outside the model. -/
def selectForRole (sel : SelState) (role : Role) (results : List Feature)
    (index : Nat) : SelState :=
  match results[index]? with
  | none => sel
  | some f => setSelectedFeature sel role (some f)

/-- An argument to setSource or setTarget: null or undefined, a string, a
number, or a Location value. -/
inductive ApiArg
  | jsnull
  | str (s : String)
  | num (n : Int)
  | feat (f : Feature)
deriving DecidableEq, Repr

/-- JavaScript truth test on an API argument: null and undefined, the empty
string and the number 0 are falsy; object values are truthy. -/
def ApiArg.falsy : ApiArg → Bool
  | .jsnull => true
  | .str s => s = ""
  | .num n => n = 0
  | .feat _ => false

/-- Loose equality x.properties.id == idOrFeature between the stored string
identifier and a string or number argument.  For a number the string operand
is coerced to a number, modelled for integer literals. -/
def looseIdEq (id : String) : ApiArg → Bool
  | .str s => id = s
  | .num n => (if id = "" then some (0 : Int) else id.toInt?) = some n
  | _ => false

/-- setSource: a falsy argument clears the slot; a string or number resolves
against the corpus, a miss changing nothing; a Location value is assigned
directly. -/
def setSourceApi (corpus : List Feature) (sel : SelState) (arg : ApiArg) : SelState :=
  if arg.falsy then setSelectedFeature sel .source none
  else
    match arg with
    | .str s =>
        match corpus.find? (fun x => looseIdEq x.id (.str s)) with
        | some f => setSelectedFeature sel .source (some f)
        | none => sel
    | .num n =>
        match corpus.find? (fun x => looseIdEq x.id (.num n)) with
        | some f => setSelectedFeature sel .source (some f)
        | none => sel
    | .feat f => setSelectedFeature sel .source (some f)
    | .jsnull => sel

/-- setTarget, identical to setSource with the other slot. -/
def setTargetApi (corpus : List Feature) (sel : SelState) (arg : ApiArg) : SelState :=
  if arg.falsy then setSelectedFeature sel .target none
  else
    match arg with
    | .str s =>
        match corpus.find? (fun x => looseIdEq x.id (.str s)) with
        | some f => setSelectedFeature sel .target (some f)
        | none => sel
    | .num n =>
        match corpus.find? (fun x => looseIdEq x.id (.num n)) with
        | some f => setSelectedFeature sel .target (some f)
        | none => sel
    | .feat f => setSelectedFeature sel .target (some f)
    | .jsnull => sel

/-! ## The selection state machine over all input channels -/

/-- One assignment event arriving at the selection state machine.  The click
event carries the active role as the focus bookkeeping would have set it at
that moment. -/
inductive SelEvent
  | suggest (role : Role) (results : List Feature) (index : Nat)
  | click (activeRole : Option Role) (pt : ℚ × ℚ)
  | apiSource (arg : ApiArg)
  | apiTarget (arg : ApiArg)
  | clearSlot (role : Role)
deriving Repr

/-- Dispatch of one event to the channel handlers of the source. -/
def stepEvent (corpus : List Feature) (sel : SelState) : SelEvent → SelState
  | .suggest role results index => selectForRole sel role results index
  | .click activeRole pt => mapClick corpus activeRole sel pt
  | .apiSource arg => setSourceApi corpus sel arg
  | .apiTarget arg => setTargetApi corpus sel arg
  | .clearSlot role => setSelectedFeature sel role none

/-- Run a sequence of events from the empty selection. -/
def runEvents (corpus : List Feature) (evs : List SelEvent) : SelState :=
  evs.foldl (stepEvent corpus) {}

/-- The two slots never hold the same identifier simultaneously. -/
def distinctSlots (sel : SelState) : Prop :=
  ∀ f g, sel.source = some f → sel.target = some g → f.id ≠ g.id

/-! ## Route fetch pipeline state (fetchAndRenderRouteIfReady,
lines 2411-2682) -/

/-- The body of a route response: either it lacks the expected features
array (Invalid route GeoJSON), or it carries the segment features. -/
inductive RoutePayload
  | invalid
  | geo (features : List SegProps)
deriving Repr

/-- Outcome of one route fetch: failure covers a network error and a non-OK
HTTP status (both throw before the payload is inspected). -/
inductive FetchOutcome
  | failure
  | ok (payload : RoutePayload)
deriving Repr

/-- The endpoints extracted from the route geometry for the
search-route-ends source. -/
def endPointsOf (features : List SegProps) : List (ℚ × ℚ) :=
  (features.map (fun f =>
    match f.geometry with
    | some (.lineString cs) =>
        match cs.head?, cs.getLast? with
        | some a, some b => [a, b]
        | _, _ => []
    | some (.multiLineString ls) =>
        let all := ls.flatten
        match all.head?, all.getLast? with
        | some a, some b => [a, b]
        | _, _ => []
    | some (.point c) => [c, c]
    | _ => [])).flatten

/-- The observable state the route pipeline writes: the selection, the data
of the search-route and search-route-ends sources (empty list means cleared)
and the itinerary panel (none means emptied). -/
structure AppState where
  selected : SelState
  routeData : List SegProps
  routeEnds : List (ℚ × ℚ)
  sidebar : Option (List Row)
deriving Repr

/-- updateSidebarForRoute restricted to the panel content: a null or
featureless payload empties the panel, otherwise the rows are derived. -/
def updateSidebarModel (corpus : List Feature) (sel : SelState)
    (routeGeo : Option (List SegProps)) : Option (List Row) :=
  match routeGeo with
  | none => none
  | some feats =>
      if feats.isEmpty then none
      else some (rowsFor (mkSegs corpus sel feats))

/-- fetchAndRenderRouteIfReady as a state transformer over one fetch
outcome.  An empty slot clears the two route sources and the panel without
fetching; empty identifiers return without fetching; a failure or an invalid
payload reaches the catch, which only empties the panel; a good payload
replaces the route data, the endpoints and the panel.  The per-segment color
annotation and the viewport fit are display effects carried on fields the
model does not inspect. -/
def fetchAndRenderRouteIfReady (corpus : List Feature) (s : AppState)
    (outcome : FetchOutcome) : AppState :=
  match s.selected.source, s.selected.target with
  | some sf, some tf =>
      if sf.id = "" ∨ tf.id = "" then s
      else
        match outcome with
        | .failure => { s with sidebar := none }
        | .ok .invalid => { s with sidebar := none }
        | .ok (.geo feats) =>
            { s with routeData := feats
                   , routeEnds := endPointsOf feats
                   , sidebar := updateSidebarModel corpus s.selected (some feats) }
  | _, _ => { s with routeData := [], routeEnds := [], sidebar := none }

/-! ## Viewport fit (fitBoundsForGeoJSON, lines 2220-2353) -/

/-- The coordinate list contributing to the bounding box for each supported
geometry type; unsupported types contribute nothing. -/
def geomPoints : Geom → List (ℚ × ℚ)
  | .point c => [c]
  | .multiPoint cs => cs
  | .lineString cs => cs
  | .multiLineString ls => ls.flatten
  | .polygon rings => rings.flatten
  | .multiPolygon polys => (polys.map List.flatten).flatten

/-- The longitude and latitude extremes accumulated by addPoint. -/
structure BBox where
  minLng : ℚ
  maxLng : ℚ
  minLat : ℚ
  maxLat : ℚ
deriving DecidableEq, Repr

/-- addPoint on the running box; none models the initial Infinity state. -/
def addPoint (acc : Option BBox) (c : ℚ × ℚ) : Option BBox :=
  match acc with
  | none => some ⟨c.1, c.1, c.2, c.2⟩
  | some b => some ⟨min b.minLng c.1, max b.maxLng c.1, min b.minLat c.2, max b.maxLat c.2⟩

/-- The bounding box over every feature geometry; none corresponds to the
minLng === Infinity early return. -/
def bboxOf (features : List (Option Geom)) : Option BBox :=
  ((features.map (fun g => (g.map geomPoints).getD [])).flatten).foldl addPoint none

/-- The center ((minLng + maxLng) / 2, (minLat + maxLat) / 2). -/
def bboxCenter (b : BBox) : ℚ × ℚ :=
  ((b.minLng + b.maxLng) / 2, (b.minLat + b.maxLat) / 2)

/-- The latitude clamp MAX_LAT = 85.0511287798 used before the Mercator
projection. -/
def mercClampLat (lat : ℚ) : ℚ :=
  max (min (850511287798 / 10000000000 : ℚ) lat) (-(850511287798 / 10000000000 : ℚ))

/-- Zero projected width: the world x coordinate is (lng + 180) / 360, an
injective affine map, so the projected width vanishes exactly when the two
longitudes agree. -/
def projWidthZero (b : BBox) : Bool := b.minLng = b.maxLng

/-- Zero projected height: the Mercator y is a strictly monotone function of
the clamped latitude, so the projected height vanishes exactly when the two
clamped latitudes agree. -/
def projHeightZero (b : BBox) : Bool := mercClampLat b.minLat = mercClampLat b.maxLat

/-- The map environment fitBoundsForGeoJSON reads: canvas size, resolved
padding (opts.padding || computePaddingFromSidebar()), current zoom. -/
structure FitEnv where
  width : ℚ
  height : ℚ
  padTop : ℚ
  padRight : ℚ
  padBottom : ℚ
  padLeft : ℚ
  currentZoom : ℚ
deriving DecidableEq, Repr

/-- The viewport action produced: nothing, the degenerate-or-catch ease to a
center at (getZoom() || 10) - 1, or the padded ease whose zoom is the log2
fit of the recorded world box into the recorded inner viewport minus one. -/
inductive FitAction
  | noop
  | easeFallback (center : ℚ × ℚ) (zoom : ℚ)
  | easeFitted (center : ℚ × ℚ) (innerW innerH : ℚ) (b : BBox) (env : FitEnv)
deriving Repr

/-- The try block of fitBoundsForGeoJSON: a falsy canvas dimension throws, a
nonpositive inner size throws, a degenerate projected box eases to the
center one zoom level below (getZoom() || 10), and otherwise the padded
fitted ease is produced. -/
def fitTry (env : FitEnv) (b : BBox) : Except Unit FitAction :=
  if env.width = 0 ∨ env.height = 0 then .error ()
  else
    let innerW := env.width - env.padLeft - env.padRight
    let innerH := env.height - env.padTop - env.padBottom
    if innerW ≤ 0 ∨ innerH ≤ 0 then .error ()
    else if projWidthZero b ∨ projHeightZero b then
      .ok (.easeFallback (bboxCenter b) (jsOrNum env.currentZoom 10 - 1))
    else
      .ok (.easeFitted (bboxCenter b) innerW innerH b env)

/-- fitBoundsForGeoJSON: early return on an empty collection or an empty
box, and the catch around the try block eases to the same center at
(getZoom() || 10) - 1, so no exception escapes the function. -/
def fitBoundsForGeoJSON (env : FitEnv) (features : List (Option Geom)) : FitAction :=
  if features.isEmpty then .noop
  else
    match bboxOf features with
    | none => .noop
    | some b =>
        match fitTry env b with
        | .ok a => a
        | .error _ => .easeFallback (bboxCenter b) (jsOrNum env.currentZoom 10 - 1)

/-! ## Helper lemmas -/

theorem rowsRest_filter_seg (l : List Seg) :
    (rowsRest l).filter isSegRow = (l.filter (fun s => !collapseSeg s)).map segRowOf := by
  induction l with
  | nil => rfl
  | cons s rest ih =>
      by_cases hc : collapseSeg s
      · simp [rowsRest, hc, ih]
      · simp only [rowsRest, if_neg hc, List.filter_append, List.filter_cons,
          List.filter_nil, ih]
        simp [isSegRow, segRowOf, targetNodeRowOf, hc]

theorem rowsRest_length_eq (l : List Seg) :
    (rowsRest l).length = 2 * (l.filter (fun s => !collapseSeg s)).length := by
  induction l with
  | nil => rfl
  | cons s rest ih =>
      by_cases hc : collapseSeg s
      · simp [rowsRest, hc, ih]
      · simp only [rowsRest, if_neg hc, List.length_append, List.filter_cons, ih]
        simp [hc]
        ring

theorem foldl_add_map {α : Type} (f : α → ℚ) :
    ∀ (l : List α) (a : ℚ), l.foldl (fun acc s => acc + f s) a = a + (l.map f).sum := by
  intro l
  induction l with
  | nil => intro a; simp
  | cons x xs ih =>
      intro a
      simp only [List.foldl_cons, List.map_cons, List.sum_cons, ih]
      ring

theorem sum_map_filter_split {α : Type} (p : α → Bool) (f : α → ℚ) :
    ∀ l : List α,
      ((l.filter p).map f).sum + ((l.filter (fun s => !p s)).map f).sum = (l.map f).sum := by
  intro l
  induction l with
  | nil => simp
  | cons x xs ih =>
      cases hp : p x with
      | true =>
          simp only [List.filter_cons, hp, Bool.not_true, if_true, if_false,
            Bool.false_eq_true, List.map_cons, List.sum_cons]
          rw [← ih]; ring
      | false =>
          simp only [List.filter_cons, hp, Bool.not_false, if_true, if_false,
            Bool.false_eq_true, List.map_cons, List.sum_cons]
          rw [← ih]; ring

/-! ## Claim theorems -/

/-- C3, counterexample.  The claim asserts every normalized record has a
string properties.id even when the raw properties bag carries a non-string
id.  A record whose bag holds the numeric id 42 comes out of
normalizeFeatures with the numeric value 42 as its id, because the trailing
spread of the raw bag overwrites the string the resolution chain computed. -/
theorem normalize_id_overridden_by_spread :
    (normalizeFeatures
        [{ topId := none
         , props := some { id := some (.vnum 42) }
         , geometry := none }]).map (fun f => f.properties.id)
      = [PropVal.vnum 42]
    ∧ PropVal.isString (PropVal.vnum 42) = false := by
  exact ⟨rfl, rfl⟩

/-- C3, amended.  normalizeFeatures gives every output a properties.id; when
the raw bag has no id key it is the string produced by the resolution chain
(top-level id, then properties.id, then properties.ID, else empty string,
coerced to string), but when the bag does carry an id key the spread of the
raw properties overwrites the normalized string with that raw value, which
may be a non-string or null. -/
theorem normalize_id_spread_semantics (f : RawFeature) :
    ((f.props.getD {}).id = none →
        (normalizeFeature f).properties.id = .vstr (fidOf f))
    ∧ (∀ v, (f.props.getD {}).id = some v →
        (normalizeFeature f).properties.id = v) := by
  constructor
  · intro h
    simp [normalizeFeature, h]
  · intro v h
    simp [normalizeFeature, h]

/-- C3, witness for the amended theorem. -/
theorem normalize_id_spread_semantics_witness :
    (normalizeFeature { topId := some (.vnum 7), props := none, geometry := none
      }).properties.id
      = .vstr (fidOf { topId := some (.vnum 7), props := none, geometry := none }) :=
  (normalize_id_spread_semantics
    { topId := some (.vnum 7), props := none, geometry := none }).1 rfl

/-- C2, counterexample.  The claim says a segment is collapsed exactly when
its line name is the reserved switch marker (case-insensitive) and its source
and target identifiers agree.  A same-node segment whose line is the literal
string switch but whose mode code is 8 (railway) satisfies that criterion,
which is the isSwitchSeg test at line 1958, yet the rows loop still renders
one segment row for it, because the loop collapses on the mode value, never
on the line name. -/
theorem switch_line_segment_still_rendered :
    (mkSegs [] {}
        [{ source := some (.vstr "Y"), target := some (.vstr "Y")
         , line := some (.vstr "switch"), mode := some (.vnum 8)
         , cost := some (.num 0) }]).all isSwitchSeg = true
    ∧ ((rowsFor (mkSegs [] {}
        [{ source := some (.vstr "Y"), target := some (.vstr "Y")
         , line := some (.vstr "switch"), mode := some (.vnum 8)
         , cost := some (.num 0) }])).filter isSegRow).length = 1 := by
  exact ⟨by decide, by decide⟩

/-- C2, amended.  A fetched segment is collapsed out of the itinerary if and
only if its mode is the switch mode (integer code 10, equivalently canonical
mode name switch) and its source identifier strictly equals its target
identifier; every other segment produces exactly one segment row followed by
its target node row, so a non-empty itinerary holds one leading node row plus
two rows per non-collapsed segment.  The line-name test isSwitchSeg exists in
the source but feeds only the steps array, which is never rendered. -/
theorem rows_collapse_mode_based (segs : List Seg) :
    ((rowsFor segs).filter isSegRow
        = (segs.filter (fun s => !collapseSeg s)).map segRowOf)
    ∧ (segs ≠ [] →
        (rowsFor segs).length
          = 1 + 2 * (segs.filter (fun s => !collapseSeg s)).length)
    ∧ (∀ s : Seg, collapseSeg s = true ↔
        ((s.modeInt = some 10 ∨ s.mode = "switch") ∧ s.sourceId = s.targetId)) := by
  refine ⟨?_, ?_, ?_⟩
  · cases segs with
    | nil => rfl
    | cons s0 rest =>
        have h1 : (rowsFor (s0 :: rest)).filter isSegRow
            = (rowsRest (s0 :: rest)).filter isSegRow := rfl
        rw [h1]
        exact rowsRest_filter_seg (s0 :: rest)
  · intro hne
    cases segs with
    | nil => exact absurd rfl hne
    | cons s0 rest =>
        have h := rowsRest_length_eq (s0 :: rest)
        simp [rowsFor, h]
        omega
  · intro s
    simp [collapseSeg]

/-- C2, witness for the amended theorem. -/
theorem rows_collapse_mode_based_witness :
    (rowsFor [⟨0, .vstr "P", .vstr "Q", "P", "Q", .vstr "L",
        some 8, "railway", .num 4, "#000000"⟩]).length
      = 1 + 2 * (([⟨0, .vstr "P", .vstr "Q", "P", "Q", .vstr "L",
        some 8, "railway", .num 4, "#000000"⟩] : List Seg).filter
        (fun s => !collapseSeg s)).length :=
  (rows_collapse_mode_based _).2.1 (by simp)

/-- C5.  For the route segments source X to Y at mode 8 and cost 5, the
same-node switch segment at Y with mode 10 and cost 0, and Y to Z at mode 8
and cost 3, the derived rows are exactly node X, the X-to-Y segment row at
five minutes, node Y, the Y-to-Z segment row at three minutes, and node Z,
the switch segment contributing no segment row; and because the node rows
carry no rank of their own, the renderer resolves the rank of the middle
node by corpus lookup of the identifier Y, which is precisely the switch
segment,s source node, for any corpus and any current selection. -/
theorem switch_scenario_itinerary (corpus : List Feature) (sel : SelState) :
    rowsFor (mkSegs corpus sel
        [ { source := some (.vstr "X"), target := some (.vstr "Y")
          , mode := some (.vnum 8), cost := some (.num 5) }
        , { source := some (.vstr "Y"), target := some (.vstr "Y")
          , line := some (.vstr "switch"), mode := some (.vnum 10)
          , cost := some (.num 0) }
        , { source := some (.vstr "Y"), target := some (.vstr "Z")
          , mode := some (.vnum 8), cost := some (.num 3) } ])
      = [ .node (getPreferredNodeName corpus sel (.vstr "X")) (.vstr "X") none
        , .seg 0 (.vstr "") "railway" "#000000" 5 none
        , .node (getPreferredNodeName corpus sel (.vstr "Y")) (.vstr "Y") none
        , .seg 2 (.vstr "") "railway" "#000000" 3 none
        , .node (getPreferredNodeName corpus sel (.vstr "Z")) (.vstr "Z") none ]
    ∧ resolveNodeRank corpus none (.vstr "Y") = getNodeRank corpus (.vstr "Y") := by
  exact ⟨rfl, rfl⟩

/-- C10.  The total shown in the summary is the fold of Number(cost) || 0
over every fetched segment: it equals the sum over all segments, it splits
into the contribution of the collapsed switch segments plus that of the
rendered ones, a non-numeric cost contributes zero, and an absent cost
yields the zero cost value in the segs mapping. -/
theorem total_duration_sums_all_segments (segs : List Seg) :
    totalMins segs = (segs.map (fun s => s.cost.minutes)).sum
    ∧ totalMins segs
        = ((segs.filter collapseSeg).map (fun s => s.cost.minutes)).sum
          + ((segs.filter (fun s => !collapseSeg s)).map (fun s => s.cost.minutes)).sum
    ∧ CostVal.nonNumeric.minutes = 0
    ∧ (∀ (corpus : List Feature) (sel : SelState) (i : Nat) (p : SegProps),
        p.cost = none → (mkSeg corpus sel i p).cost = CostVal.num 0) := by
  have hsum : totalMins segs = (segs.map (fun s => s.cost.minutes)).sum := by
    have h := foldl_add_map (fun s : Seg => s.cost.minutes) segs 0
    simpa [totalMins] using h
  refine ⟨hsum, ?_, rfl, ?_⟩
  · rw [hsum, ← sum_map_filter_split collapseSeg (fun s : Seg => s.cost.minutes) segs]
  · intro corpus sel i p h
    simp [mkSeg, h]

/-- C10, witness. -/
theorem total_duration_sums_all_segments_witness :
    (mkSeg [] {} 0 {}).cost = CostVal.num 0 :=
  (total_duration_sums_all_segments []).2.2.2 [] {} 0 {} rfl

/-- C9.  setSource and setTarget with a falsy argument (null or undefined,
the empty string, the number 0) clear the slot; with a truthy string or
number identifier that matches no corpus entry they leave the selection
unchanged, and being total functions they raise no error. -/
theorem api_falsy_clears_unknown_ignored (corpus : List Feature) (sel : SelState) :
    (setSourceApi corpus sel .jsnull = { sel with source := none })
    ∧ (setSourceApi corpus sel (.str "") = { sel with source := none })
    ∧ (setSourceApi corpus sel (.num 0) = { sel with source := none })
    ∧ (setTargetApi corpus sel .jsnull = { sel with target := none })
    ∧ (setTargetApi corpus sel (.str "") = { sel with target := none })
    ∧ (setTargetApi corpus sel (.num 0) = { sel with target := none })
    ∧ (∀ str, str ≠ "" →
        corpus.find? (fun x => looseIdEq x.id (.str str)) = none →
        setSourceApi corpus sel (.str str) = sel)
    ∧ (∀ n : Int, n ≠ 0 →
        corpus.find? (fun x => looseIdEq x.id (.num n)) = none →
        setSourceApi corpus sel (.num n) = sel)
    ∧ (∀ str, str ≠ "" →
        corpus.find? (fun x => looseIdEq x.id (.str str)) = none →
        setTargetApi corpus sel (.str str) = sel)
    ∧ (∀ n : Int, n ≠ 0 →
        corpus.find? (fun x => looseIdEq x.id (.num n)) = none →
        setTargetApi corpus sel (.num n) = sel) := by
  refine ⟨rfl, rfl, rfl, rfl, rfl, rfl, ?_, ?_, ?_, ?_⟩
  · intro str hs hfind
    simp [setSourceApi, ApiArg.falsy, hs, hfind]
  · intro n hn hfind
    simp [setSourceApi, ApiArg.falsy, hn, hfind]
  · intro str hs hfind
    simp [setTargetApi, ApiArg.falsy, hs, hfind]
  · intro n hn hfind
    simp [setTargetApi, ApiArg.falsy, hn, hfind]

/-- C9, witness. -/
theorem api_falsy_clears_unknown_ignored_witness :
    setSourceApi [⟨"A", "Alpha", none, none, none⟩]
        { source := none, target := none } (.str "ZZZ")
      = { source := none, target := none } :=
  (api_falsy_clears_unknown_ignored [⟨"A", "Alpha", none, none, none⟩]
    { source := none, target := none }).2.2.2.2.2.2.1 "ZZZ" (by decide) (by decide)

/-- C6.  After the re-sort of searchForRole, the result list is a
permutation of the raw matches in which, for any earlier and later entry,
either the earlier one has the strictly smaller score key (score || 0) or
the score keys agree and the earlier rank key (rank ?? 9999) is at most the
later one; in particular better-scored entries precede and equal scores are
ordered by rank ascending. -/
theorem suggestions_sorted_by_score_then_rank (l : List FuseResult) :
    (jsSortResults l).Pairwise (fun a b =>
        scoreKey a < scoreKey b ∨ (scoreKey a = scoreKey b ∧ rankKey a ≤ rankKey b))
    ∧ (jsSortResults l).Perm l := by
  constructor
  · exact List.sorted_insertionSort cmpLe l
  · exact List.perm_insertionSort cmpLe l

/-- C8.  Whenever the accumulated bounding box has zero projected width or
zero projected height, every branch of fitBoundsForGeoJSON produces the
fallback ease to the box center at (getZoom() || 10) - 1, which is one zoom
level below the current zoom whenever the current zoom is nonzero; moreover
every error the inner try block can throw is caught and mapped to that same
fallback ease, so no exception escapes the function (its result type has no
error case at all). -/
theorem fit_degenerate_box_falls_back (env : FitEnv) (features : List (Option Geom))
    (b : BBox) (hb : bboxOf features = some b) :
    ((projWidthZero b = true ∨ projHeightZero b = true) →
        fitBoundsForGeoJSON env features
          = .easeFallback (bboxCenter b) (jsOrNum env.currentZoom 10 - 1))
    ∧ (∀ e, fitTry env b = .error e →
        fitBoundsForGeoJSON env features
          = .easeFallback (bboxCenter b) (jsOrNum env.currentZoom 10 - 1))
    ∧ (env.currentZoom ≠ 0 → jsOrNum env.currentZoom 10 = env.currentZoom) := by
  have hne : features.isEmpty = false := by
    cases features with
    | nil => simp [bboxOf] at hb
    | cons x xs => rfl
  refine ⟨?_, ?_, ?_⟩
  · intro hdeg
    have hd : (projWidthZero b ∨ projHeightZero b : Prop) := by
      rcases hdeg with h | h
      · exact Or.inl (by simp [h])
      · exact Or.inr (by simp [h])
    have htry : fitTry env b = .error ()
        ∨ fitTry env b
            = .ok (.easeFallback (bboxCenter b) (jsOrNum env.currentZoom 10 - 1)) := by
      unfold fitTry
      dsimp only
      split_ifs with h1 h2 <;>
        first
          | exact Or.inl rfl
          | exact Or.inr rfl
    rcases htry with h | h <;>
      simp only [fitBoundsForGeoJSON, hne, Bool.false_eq_true, if_false, hb, h]
  · intro e he
    simp only [fitBoundsForGeoJSON, hne, Bool.false_eq_true, if_false, hb, he]
  · intro h
    simp [jsOrNum, h]

/-- C8, witness. -/
theorem fit_degenerate_box_falls_back_witness :
    fitBoundsForGeoJSON ⟨800, 600, 60, 60, 60, 60, 12⟩ [some (.point (29, 41))]
      = .easeFallback (bboxCenter ⟨29, 29, 41, 41⟩)
          (jsOrNum (⟨800, 600, 60, 60, 60, 60, 12⟩ : FitEnv).currentZoom 10 - 1) :=
  (fit_degenerate_box_falls_back ⟨800, 600, 60, 60, 60, 60, 12⟩
    [some (.point (29, 41))] ⟨29, 29, 41, 41⟩ (by decide)).1 (Or.inl (by decide))

/-- C4, counterexample.  The claim says a failed route fetch clears the
route display and the itinerary.  Starting from a state that still displays
one route feature, a network failure leaves that route data in place: only
the itinerary panel is emptied, so the display is not cleared. -/
theorem route_failure_leaves_route_display :
    (fetchAndRenderRouteIfReady []
        { selected := { source := some ⟨"A", "Alpha", none, none, none⟩
                      , target := some ⟨"B", "Beta", none, none, none⟩ }
        , routeData := [{ source := some (.vstr "A") }]
        , routeEnds := []
        , sidebar := some [] } .failure).routeData
      = [{ source := some (.vstr "A") }]
    ∧ ([{ source := some (.vstr "A") }] : List SegProps) ≠ []
    ∧ (fetchAndRenderRouteIfReady []
        { selected := { source := some ⟨"A", "Alpha", none, none, none⟩
                      , target := some ⟨"B", "Beta", none, none, none⟩ }
        , routeData := [{ source := some (.vstr "A") }]
        , routeEnds := []
        , sidebar := some [] } .failure).sidebar = none := by
  exact ⟨rfl, by decide, rfl⟩

/-- C4, amended.  When both slots hold Locations with non-empty identifiers
and the fetch fails (network error or non-OK status) or the payload lacks
the expected segment list, the pipeline empties only the itinerary panel:
the selection, the displayed route geometry and the endpoint markers are
left exactly as they were, and the transformer consumes the single outcome
with no retry. -/
theorem route_failure_clears_only_itinerary (corpus : List Feature) (s : AppState)
    (sf tf : Feature) (o : FetchOutcome)
    (hs : s.selected.source = some sf) (ht : s.selected.target = some tf)
    (hsid : sf.id ≠ "") (htid : tf.id ≠ "")
    (ho : o = .failure ∨ o = .ok .invalid) :
    fetchAndRenderRouteIfReady corpus s o = { s with sidebar := none } := by
  rcases ho with rfl | rfl <;>
    simp [fetchAndRenderRouteIfReady, hs, ht, hsid, htid]

/-- C4, witness for the amended theorem. -/
theorem route_failure_clears_only_itinerary_witness :
    fetchAndRenderRouteIfReady []
        { selected := { source := some ⟨"A", "Alpha", none, none, none⟩
                      , target := some ⟨"B", "Beta", none, none, none⟩ }
        , routeData := [], routeEnds := [], sidebar := some [] } .failure
      = { selected := { source := some ⟨"A", "Alpha", none, none, none⟩
                      , target := some ⟨"B", "Beta", none, none, none⟩ }
        , routeData := [], routeEnds := [], sidebar := none } :=
  route_failure_clears_only_itinerary [] _ ⟨"A", "Alpha", none, none, none⟩
    ⟨"B", "Beta", none, none, none⟩ .failure rfl rfl (by decide) (by decide)
    (Or.inl rfl)

/-- C1, counterexample.  The claim asserts the two slots never hold the same
identifier for any sequence of assignments through any channel.  Assigning a
Location through the programmatic setSource and then selecting the same
Location for the target role through a suggestion row leaves the same
identifier in both slots: only the map-click channel carries a duplicate
guard. -/
theorem duplicate_selection_reachable :
    (runEvents []
        [ .apiSource (.feat ⟨"A", "Alpha", none, none, some (.point (29, 41))⟩)
        , .suggest .target [⟨"A", "Alpha", none, none, some (.point (29, 41))⟩] 0 ])
      = { source := some ⟨"A", "Alpha", none, none, some (.point (29, 41))⟩
        , target := some ⟨"A", "Alpha", none, none, some (.point (29, 41))⟩ }
    ∧ ¬ distinctSlots
        { source := some ⟨"A", "Alpha", none, none, some (.point (29, 41))⟩
        , target := some ⟨"A", "Alpha", none, none, some (.point (29, 41))⟩ } := by
  refine ⟨rfl, ?_⟩
  intro hd
  exact hd _ _ rfl rfl rfl

/-- C1, amended.  The duplicate-identifier constraint is enforced at the
moment of assignment only on the map-click channel: a map click never
creates a state in which both slots hold the same identifier, while the
suggestion-row and programmatic channels are unguarded (see the reachable
counterexample). -/
theorem click_channel_preserves_distinct_slots
    (corpus : List Feature) (activeRole : Option Role) (sel : SelState) (pt : ℚ × ℚ)
    (h : distinctSlots sel) :
    distinctSlots (mapClick corpus activeRole sel pt) := by
  cases activeRole with
  | none => exact h
  | some role =>
      cases hn : nearestHit corpus pt with
      | none => simpa [mapClick, hn] using h
      | some f =>
          cases role with
          | source =>
              cases hg : sel.target with
              | none =>
                  have hm : mapClick corpus (some .source) sel pt
                      = { sel with source := some f } := by
                    simp [mapClick, hn, SelState.get, otherRole, hg, setSelectedFeature]
                  rw [hm]
                  intro a b ha hb
                  have hb2 : sel.target = some b := hb
                  rw [hg] at hb2
                  exact Option.noConfusion hb2
              | some g =>
                  by_cases hid : g.id = f.id
                  · have hm : mapClick corpus (some .source) sel pt = sel := by
                      simp [mapClick, hn, SelState.get, otherRole, hg, hid]
                    rw [hm]; exact h
                  · have hm : mapClick corpus (some .source) sel pt
                        = { sel with source := some f } := by
                      simp [mapClick, hn, SelState.get, otherRole, hg, hid,
                        setSelectedFeature]
                    rw [hm]
                    intro a b ha hb
                    have ha2 : some f = some a := ha
                    have hb2 : sel.target = some b := hb
                    obtain rfl : f = a := Option.some.inj ha2
                    rw [hg] at hb2
                    obtain rfl : g = b := Option.some.inj hb2
                    exact fun hfg => hid hfg.symm
          | target =>
              cases hg : sel.source with
              | none =>
                  have hm : mapClick corpus (some .target) sel pt
                      = { sel with target := some f } := by
                    simp [mapClick, hn, SelState.get, otherRole, hg, setSelectedFeature]
                  rw [hm]
                  intro a b ha hb
                  have ha2 : sel.source = some a := ha
                  rw [hg] at ha2
                  exact Option.noConfusion ha2
              | some g =>
                  by_cases hid : g.id = f.id
                  · have hm : mapClick corpus (some .target) sel pt = sel := by
                      simp [mapClick, hn, SelState.get, otherRole, hg, hid]
                    rw [hm]; exact h
                  · have hm : mapClick corpus (some .target) sel pt
                        = { sel with target := some f } := by
                      simp [mapClick, hn, SelState.get, otherRole, hg, hid,
                        setSelectedFeature]
                    rw [hm]
                    intro a b ha hb
                    have ha2 : sel.source = some a := ha
                    have hb2 : some f = some b := hb
                    rw [hg] at ha2
                    obtain rfl : g = a := Option.some.inj ha2
                    obtain rfl : f = b := Option.some.inj hb2
                    exact hid

/-- C1, witness for the amended theorem. -/
theorem click_channel_preserves_distinct_slots_witness :
    distinctSlots (mapClick [] none {} (0, 0)) :=
  click_channel_preserves_distinct_slots [] none {} (0, 0)
    (fun _ _ hf _ => Option.noConfusion hf)

theorem clickFold_none (click : ℚ × ℚ) (acc : Option (Feature × ℚ)) (x : Feature)
    (h : clickFold click acc x = none) : acc = none := by
  unfold clickFold at h
  cases hpc : pointCoords x with
  | none => rwa [hpc] at h
  | some c =>
      rw [hpc] at h
      dsimp only at h
      split_ifs at h with hcond
      exact h

theorem clickFold_foldl_none (click : ℚ × ℚ) :
    ∀ (l : List Feature) (acc : Option (Feature × ℚ)),
      l.foldl (clickFold click) acc = none → acc = none := by
  intro l
  induction l with
  | nil => intro acc h; exact h
  | cons x xs ih =>
      intro acc h
      rw [List.foldl_cons] at h
      exact clickFold_none click acc x (ih _ h)

theorem clickFold_foldl_improve (click : ℚ × ℚ) :
    ∀ (l : List Feature) (acc : Option (Feature × ℚ)) (a : Feature) (da : ℚ),
      acc = some (a, da) →
      ∃ f d, l.foldl (clickFold click) acc = some (f, d) ∧ d ≤ da := by
  intro l
  induction l with
  | nil => intro acc a da h; exact ⟨a, da, h, le_refl _⟩
  | cons x xs ih =>
      intro acc a da h
      subst h
      rw [List.foldl_cons]
      cases hpc : pointCoords x with
      | none =>
          have heq : clickFold click (some (a, da)) x = some (a, da) := by
            unfold clickFold; rw [hpc]
          rw [heq]
          exact ih _ a da rfl
      | some c =>
          by_cases hcond : distSq c click < tolSq
              ∧ ∀ p ∈ (some (a, da) : Option (Feature × ℚ)), distSq c click < p.2
          · have heq : clickFold click (some (a, da)) x = some (x, distSq c click) := by
              unfold clickFold; rw [hpc]; dsimp only; rw [if_pos hcond]
            rw [heq]
            obtain ⟨f, d, hres, hle⟩ := ih _ x (distSq c click) rfl
            have hlt : distSq c click < da := hcond.2 (a, da) rfl
            exact ⟨f, d, hres, le_of_lt (lt_of_le_of_lt hle hlt)⟩
          · have heq : clickFold click (some (a, da)) x = some (a, da) := by
              unfold clickFold; rw [hpc]; dsimp only; rw [if_neg hcond]
            rw [heq]
            exact ih _ a da rfl

theorem clickFold_foldl_reach (click : ℚ × ℚ) :
    ∀ (l : List Feature) (acc : Option (Feature × ℚ)) (g : Feature) (cg : ℚ × ℚ),
      g ∈ l → pointCoords g = some cg → distSq cg click < tolSq →
      ∃ f d, l.foldl (clickFold click) acc = some (f, d) ∧ d ≤ distSq cg click := by
  intro l
  induction l with
  | nil => intro acc g cg hg; cases hg
  | cons x xs ih =>
      intro acc g cg hg hpcg htol
      rw [List.foldl_cons]
      rcases List.mem_cons.mp hg with rfl | hmem
      · by_cases hcond : distSq cg click < tolSq ∧ ∀ p ∈ acc, distSq cg click < p.2
        · have heq : clickFold click acc g = some (g, distSq cg click) := by
            unfold clickFold; rw [hpcg]; dsimp only; rw [if_pos hcond]
          rw [heq]
          exact clickFold_foldl_improve click xs _ g (distSq cg click) rfl
        · have heq : clickFold click acc g = acc := by
            unfold clickFold; rw [hpcg]; dsimp only; rw [if_neg hcond]
          rw [heq]
          have hnall : ¬ ∀ p ∈ acc, distSq cg click < p.2 :=
            fun hall => hcond ⟨htol, hall⟩
          cases hacc : acc with
          | none =>
              exfalso
              apply hnall
              intro p hp
              rw [hacc] at hp
              exact absurd hp (by simp)
          | some pr =>
              obtain ⟨a, da⟩ := pr
              have hda : da ≤ distSq cg click := by
                by_contra hcon
                push_neg at hcon
                apply hnall
                intro p hp
                rw [hacc] at hp
                have hpe : (a, da) = p := by simpa using hp
                rw [← hpe]
                exact hcon
              obtain ⟨f, d, hres, hle⟩ :=
                clickFold_foldl_improve click xs (some (a, da)) a da rfl
              exact ⟨f, d, hres, hle.trans hda⟩
      · exact ih _ g cg hmem hpcg htol

theorem clickFold_foldl_sound (click : ℚ × ℚ) :
    ∀ (l : List Feature) (acc : Option (Feature × ℚ)) (f : Feature) (d : ℚ),
      l.foldl (clickFold click) acc = some (f, d) →
      acc = some (f, d)
      ∨ (f ∈ l ∧ ∃ c, pointCoords f = some c ∧ d = distSq c click ∧ d < tolSq) := by
  intro l
  induction l with
  | nil => intro acc f d h; exact Or.inl h
  | cons x xs ih =>
      intro acc f d h
      rw [List.foldl_cons] at h
      rcases ih _ f d h with hacc | ⟨hmem, hw⟩
      · cases hpc : pointCoords x with
        | none =>
            have heq : clickFold click acc x = acc := by
              unfold clickFold; rw [hpc]
            rw [heq] at hacc
            exact Or.inl hacc
        | some c =>
            by_cases hcond : distSq c click < tolSq ∧ ∀ p ∈ acc, distSq c click < p.2
            · have heq : clickFold click acc x = some (x, distSq c click) := by
                unfold clickFold; rw [hpc]; dsimp only; rw [if_pos hcond]
              rw [heq] at hacc
              have hpair : (x, distSq c click) = (f, d) := Option.some.inj hacc
              have hx : x = f := congrArg Prod.fst hpair
              have hd : distSq c click = d := congrArg Prod.snd hpair
              refine Or.inr ⟨hx ▸ List.mem_cons_self x xs, c, hx ▸ hpc, hd.symm, ?_⟩
              rw [← hd]
              exact hcond.1
            · have heq : clickFold click acc x = acc := by
                unfold clickFold; rw [hpc]; dsimp only; rw [if_neg hcond]
              rw [heq] at hacc
              exact Or.inl hacc
      · exact Or.inr ⟨List.mem_cons_of_mem x hmem, hw⟩

/-- C7, counterexample.  The claim asserts that whenever a role is active
and some corpus Point lies strictly within tolerance of the click, the
nearest such feature is assigned to the active role.  With the destination
slot already holding the only corpus feature and the start role active, a
click directly on that feature is rejected by the duplicate guard: nothing
is assigned and both slots are unchanged. -/
theorem click_nearest_duplicate_rejected :
    nearestHit [⟨"A", "Alpha", none, none, some (.point (0, 0))⟩] (0, 0)
      = some ⟨"A", "Alpha", none, none, some (.point (0, 0))⟩
    ∧ mapClick [⟨"A", "Alpha", none, none, some (.point (0, 0))⟩] (some .source)
        { source := none
        , target := some ⟨"A", "Alpha", none, none, some (.point (0, 0))⟩ } (0, 0)
      = { source := none
        , target := some ⟨"A", "Alpha", none, none, some (.point (0, 0))⟩ }
    ∧ ({ source := none
       , target := some ⟨"A", "Alpha", none, none, some (.point (0, 0))⟩ } : SelState).source
      = none := by
  have hd : distSq (0, 0) (0, 0) < tolSq := by norm_num [distSq, tolSq]
  have hn : nearestHit [⟨"A", "Alpha", none, none, some (.point (0, 0))⟩] (0, 0)
      = some ⟨"A", "Alpha", none, none, some (.point (0, 0))⟩ := by
    unfold nearestHit
    rw [List.foldl_cons, List.foldl_nil]
    have heq : clickFold (0, 0) none ⟨"A", "Alpha", none, none, some (.point (0, 0))⟩
        = some (⟨"A", "Alpha", none, none, some (.point (0, 0))⟩, distSq (0, 0) (0, 0)) := by
      unfold clickFold
      rw [show pointCoords ⟨"A", "Alpha", none, none, some (.point (0, 0))⟩
            = some (0, 0) from rfl]
      dsimp only
      rw [if_pos ⟨hd, by simp⟩]
    rw [heq]
    rfl
  refine ⟨hn, ?_, rfl⟩
  unfold mapClick
  rw [hn]
  dsimp only [SelState.get, otherRole]
  rw [if_pos rfl]

/-- C7, amended.  When a role is active: a miss (no corpus Point strictly
within the squared tolerance of the click) changes no slot; a hit resolves
to a corpus Point feature strictly within tolerance whose squared distance
is minimal among all in-tolerance Points (the first such feature on exact
ties), and it is assigned to the active role unless its identifier equals
the identifier currently held by the other role, in which case the click is
rejected with no state change. -/
theorem map_click_assigns_nearest_unless_duplicate
    (corpus : List Feature) (role : Role) (sel : SelState) (click : ℚ × ℚ) :
    (nearestHit corpus click = none →
        mapClick corpus (some role) sel click = sel
        ∧ ∀ g ∈ corpus, ∀ cg, pointCoords g = some cg → ¬ distSq cg click < tolSq)
    ∧ (∀ f, nearestHit corpus click = some f →
        f ∈ corpus
        ∧ (∃ c, pointCoords f = some c ∧ distSq c click < tolSq
            ∧ ∀ g ∈ corpus, ∀ cg, pointCoords g = some cg →
                distSq cg click < tolSq → distSq c click ≤ distSq cg click)
        ∧ ((∀ g, sel.get (otherRole role) = some g → g.id ≠ f.id) →
            mapClick corpus (some role) sel click
              = setSelectedFeature sel role (some f))) := by
  constructor
  · intro hn
    constructor
    · simp [mapClick, hn]
    · intro g hg cg hpcg htol
      have hres : corpus.foldl (clickFold click) none = none := by
        unfold nearestHit at hn
        exact Option.map_eq_none'.mp hn
      obtain ⟨f, d, hsome, _⟩ :=
        clickFold_foldl_reach click corpus none g cg hg hpcg htol
      rw [hres] at hsome
      exact Option.noConfusion hsome
  · intro f hn
    have hex : ∃ pr : Feature × ℚ,
        corpus.foldl (clickFold click) none = some pr ∧ pr.1 = f := by
      unfold nearestHit at hn
      exact Option.map_eq_some'.mp hn
    obtain ⟨⟨f', d⟩, hres, hf⟩ := hex
    cases hf
    rcases clickFold_foldl_sound click corpus none f' d hres with hl | ⟨hmem, c, hpc, hd, htol⟩
    · exact Option.noConfusion hl
    refine ⟨hmem, ⟨c, hpc, hd ▸ htol, ?_⟩, ?_⟩
    · intro g hg cg hpcg htolg
      obtain ⟨f2, d2, hres2, hle⟩ :=
        clickFold_foldl_reach click corpus none g cg hg hpcg htolg
      rw [hres] at hres2
      have hpair : (f', d) = (f2, d2) := Option.some.inj hres2
      have hdd : d = d2 := congrArg Prod.snd hpair
      rw [← hd]
      rw [hdd]
      exact hle
    · intro hguard
      cases hother : sel.get (otherRole role) with
      | none => simp [mapClick, hn, hother]
      | some g =>
          have hne : ¬ g.id = f'.id := hguard g hother
          simp [mapClick, hn, hother, hne]

/-- C7, witness for the amended theorem. -/
theorem map_click_assigns_nearest_unless_duplicate_witness :
    mapClick [] (some .source) {} (0, 0) = ({} : SelState) :=
  ((map_click_assigns_nearest_unless_duplicate [] .source {} (0, 0)).1 rfl).1

end OttomanRouting
